import Mathlib

/-!
Shallow embedding of the InfluxDB IOx management control surface
(`influxdb_iox/src/influxdb_ioxd/server_type/database/rpc/management.rs`)
and of the bulk-import TSM schema aggregation utility
(`import/src/lib.rs`), together with proofs that settle the frozen
specification claims against this code.

Conventions:
- gRPC `Status` errors become the `GStatus` structure; handler bodies are
  translated statement by statement from the Rust source into `Except`.
- Server/database internals that live outside the provided source slice
  (registry lookup, the database state machine, the preserved-catalog wipe)
  are modelled from the spec; each such definition carries a doc comment
  starting with `Modelled from the spec:`.
- Rust `HashMap`s are modelled as association lists whose order stands for
  the map's (arbitrary but fixed) iteration order; `HashSet`s are modelled
  by their element lists.
-/

set_option autoImplicit false

namespace Management

/-- Spec error taxonomy (§7) as surfaced through transport status codes. -/
inductive StatusCode where
  | ok
  | notFound
  | alreadyExists
  | invalidArgument
  | invalidState
  | unavailable
  | internal
  deriving DecidableEq, Repr

/-- A transport-level error status: code plus the context fields the
handlers fill in (`resource_type`/`resource_name` for NotFound/AlreadyExists,
free-form message otherwise). -/
structure GStatus where
  code : StatusCode
  resourceType : String := ""
  resourceName : String := ""
  message : String := ""
  deriving DecidableEq, Repr

/-- Database rules as a tenant submits them.  The payload fields are
representative configuration knobs: optional fields are the ones the
defaulting step fills in. -/
structure DatabaseRules where
  name : String
  partitionTemplate : Option String := none
  lifecycleBufferMb : Option Nat := none
  deriving DecidableEq, Repr

/-- Modelled from the spec: "active rules" are the "provided rules merged
with defaults" — every optional knob the tenant left unset is replaced by
its documented default. -/
def mergeDefaults (r : DatabaseRules) : DatabaseRules :=
  { r with
    partitionTemplate := some (r.partitionTemplate.getD "%Y-%m-%d %H:00:00")
    lifecycleBufferMb := some (r.lifecycleBufferMb.getD 52428800) }

/-- `server::rules::ProvidedDatabaseRules`: keeps both the rules exactly as
originally provided (`original`) and the validated active form with all
defaults filled in (`rules`). -/
structure ProvidedDatabaseRules where
  original : DatabaseRules
  rules : DatabaseRules
  deriving DecidableEq, Repr

/-- Translation of `format_rules` (management.rs lines 511-519): if
`omit_defaults` is true, return the rules as originally provided by the
user, otherwise return the active rules with all defaults filled in. -/
def format_rules (provided_rules : ProvidedDatabaseRules) (omit_defaults : Bool) :
    DatabaseRules :=
  if omit_defaults then
    provided_rules.original
  else
    provided_rules.rules

/-- Database lifecycle state codes (§4.1 of the spec). -/
inductive DatabaseStateCode where
  | known
  | rulesLoaded
  | replaying
  | initialized
  | rulesLoadError
  | replayError
  | released
  deriving DecidableEq, Repr

/-- One registered database as seen through the registry: its name, the
optional provided rules (absent until rules are loaded), whether it is
active, its lifecycle state code and optional initialization error. -/
structure Database where
  name : String
  providedRules : Option ProvidedDatabaseRules
  isActive : Bool
  stateCode : DatabaseStateCode
  initError : Option String
  deriving DecidableEq, Repr

/-- Errors produced by the `server::Server` registry layer. -/
inductive ServerError where
  | databaseNotFound (name : String)
  | databaseAlreadyExists (name : String)
  | idNotFound
  | serverNotInitialized
  | other (msg : String)
  deriving DecidableEq, Repr

/-- Errors produced by the per-database state machine. -/
inductive DatabaseError where
  | invalidState (state : DatabaseStateCode)
  | other (msg : String)
  deriving DecidableEq, Repr

/-- Errors produced by the chunk/partition manager of one database. -/
inductive DbError where
  | partitionNotFound (key : String)
  | lifecycleError (msg : String)
  deriving DecidableEq, Repr

/-- A tracked long-running operation handle registered with the Operation
Tracker (spec §4.4): fresh id plus human-readable description. -/
structure Operation where
  id : Nat
  description : String
  deriving DecidableEq, Repr

/-- Modelled from the spec: `super::operations::encode_tracker` renders a
tracker registration as the wire operation message carrying its handle;
the wire message is modelled by the handle itself. -/
def encodeTracker (tracker : Operation) : Operation :=
  tracker

/-- One chunk/partition-manager call the control surface forwarded to the
database layer, recording the arguments it passed (in particular the
`force` flag of a persist). -/
structure PersistCall where
  tableName : String
  partitionKey : String
  force : Bool
  deriving DecidableEq, Repr

/-- The in-memory view of one database's chunk/partition manager layer, as
reached through `server.db(&db_name)`.  `persistResult` gives the outcome
of `db.persist_partition(table, partition, force)` once that (awaited)
work has run. -/
structure Db where
  persistResult : String → String → Bool → Except DbError Unit
  dropResult : String → String → Except DbError Unit

/-- The `server::Server` registry as the management service sees it. -/
structure Server where
  initialized : Bool
  serverInitError : Option String
  /-- Result of `server.databases()`: the registered databases, or an error
  when, e.g., the server has not finished bootstrapping. -/
  databasesResult : Except ServerError (List Database)
  /-- Databases known by name, backing `server.database(&name)`. -/
  knownDatabases : List Database
  /-- Modelled from the spec: names of databases currently mid-creation
  (the initial catalog write has not committed yet). -/
  creatingDbs : List String
  /-- Tracker the Operation Tracker hands out for a wipe-and-rebuild of the
  named database's preserved catalog. -/
  wipeTracker : String → Operation
  /-- Result of `server.close_chunk(db, table, partition, chunk)`: the
  tracker of the scheduled freeze-and-move work, or a registry error. -/
  closeChunkResult : String → String → String → List Nat → Except ServerError Operation
  /-- Result of `server.db(&db_name)`: the initialized database's
  chunk/partition manager, or a registry error. -/
  dbResult : String → Except ServerError Db

/-- Modelled from the spec: `data_types::DatabaseName::new` validates the
name against a restricted character set (non-empty, at most 64 characters,
alphanumeric plus `_` and `-`). -/
def validDbNameChar (c : Char) : Bool :=
  c.isAlphanum || c = '_' || c = '-'

/-- Modelled from the spec: database-name validation, returning the
description of the field violation on failure. -/
def validateDbName (s : String) : Except String String :=
  if s.length = 0 then .error "name cannot be empty"
  else if 64 < s.length then .error "name too long"
  else if s.toList.all validDbNameChar then .ok s
  else .error "name contains invalid character"

/-- A field violation is reported to the caller as an InvalidArgument
status. -/
def fieldViolationStatus (description : String) : GStatus :=
  { code := .invalidArgument, message := description }

/-- Modelled from the spec: `default_server_error_handler` maps registry
errors onto the transport taxonomy of §7 (named entity missing at the
expected state becomes NotFound, name collision AlreadyExists, incomplete
bootstrap Unavailable, anything else Internal). -/
def defaultServerErrorHandler : ServerError → GStatus
  | .databaseNotFound name =>
      { code := .notFound, resourceType := "database", resourceName := name }
  | .databaseAlreadyExists name =>
      { code := .alreadyExists, resourceType := "database", resourceName := name }
  | .idNotFound =>
      { code := .notFound, resourceType := "database uuid" }
  | .serverNotInitialized =>
      { code := .unavailable, message := "server not initialized" }
  | .other msg =>
      { code := .internal, message := msg }

/-- Modelled from the spec: `default_database_error_handler` maps database
state-machine errors onto the transport taxonomy (§7): an operation that is
not legal in the current lifecycle state becomes InvalidState. -/
def defaultDatabaseErrorHandler : DatabaseError → GStatus
  | .invalidState _ =>
      { code := .invalidState, message := "database is not in the expected state" }
  | .other msg =>
      { code := .internal, message := msg }

/-- Modelled from the spec: `default_db_error_handler` maps chunk/partition
manager errors onto the transport taxonomy (§7). -/
def defaultDbErrorHandler : DbError → GStatus
  | .partitionNotFound key =>
      { code := .notFound, resourceType := "partition", resourceName := key }
  | .lifecycleError msg =>
      { code := .internal, message := msg }

/-- Modelled from the spec: `server.database(&name)` resolves a name in the
registry's map of database names to instances, failing with a
database-not-found error when the name is unknown. -/
def Server.databaseLookup (s : Server) (name : String) : Except ServerError Database :=
  match s.knownDatabases.find? (fun db => db.name = name) with
  | some db => .ok db
  | none => .error (.databaseNotFound name)

/-- Modelled from the spec: `Database::skip_replay` is valid only from
`ReplayError`, where it abandons replay and forces the transition to
`Initialized`; from any other state it fails with an invalid-state error. -/
def Database.skipReplay (db : Database) : Except DatabaseError Database :=
  if db.stateCode = .replayError then
    .ok { db with stateCode := .initialized }
  else
    .error (.invalidState db.stateCode)

/-- Modelled from the spec: `Server::wipe_preserved_catalog` fails with
`DatabaseAlreadyExists` if invoked while the target database is
mid-creation (to avoid racing against the initial catalog write); otherwise
it spawns the destructive rebuild through the Operation Tracker and hands
back the tracker (NotFound when the name is unknown). -/
def Server.wipePreservedCatalog (s : Server) (name : String) :
    Except ServerError Operation :=
  if name ∈ s.creatingDbs then
    .error (.databaseAlreadyExists name)
  else
    match s.knownDatabases.find? (fun db => db.name = name) with
    | some _ => .ok (s.wipeTracker name)
    | none => .error (.databaseNotFound name)

/-- Modelled from the spec: `ChunkId::try_from` accepts exactly the
16-byte encodings of a chunk identifier. -/
def chunkIdTryFrom (bytes : List Nat) : Except String (List Nat) :=
  if bytes.length = 16 then .ok bytes else .error "chunk_id must be 16 bytes"

/- ===== Request/response messages (field lists as destructured/constructed
   in management.rs). ===== -/

structure ListDatabasesRequest where
  omitDefaults : Bool
  deriving DecidableEq, Repr

structure ListDatabasesResponse where
  rules : List DatabaseRules
  deriving DecidableEq, Repr

structure GetDatabaseRequest where
  name : String
  omitDefaults : Bool
  deriving DecidableEq, Repr

structure GetDatabaseResponse where
  rules : Option DatabaseRules
  deriving DecidableEq, Repr

structure GetServerStatusRequest
  deriving DecidableEq, Repr

structure ProtobufError where
  message : String
  deriving DecidableEq, Repr

structure DatabaseStatus where
  dbName : String
  error : Option ProtobufError
  state : DatabaseStateCode
  deriving DecidableEq, Repr

structure ServerStatus where
  initialized : Bool
  error : Option ProtobufError
  databaseStatuses : List DatabaseStatus
  deriving DecidableEq, Repr

structure GetServerStatusResponse where
  serverStatus : Option ServerStatus
  deriving DecidableEq, Repr

structure WipePreservedCatalogRequest where
  dbName : String
  deriving DecidableEq, Repr

structure WipePreservedCatalogResponse where
  operation : Option Operation
  deriving DecidableEq, Repr

structure SkipReplayRequest where
  dbName : String
  deriving DecidableEq, Repr

structure SkipReplayResponse
  deriving DecidableEq, Repr

/-- `PersistPartitionRequest` as destructured in the handler: database
name, partition key and table name — the message carries no force flag. -/
structure PersistPartitionRequest where
  dbName : String
  partitionKey : String
  tableName : String
  deriving DecidableEq, Repr

/-- `PersistPartitionResponse {}`: constructed with no fields — in
particular it has no operation-handle field. -/
structure PersistPartitionResponse
  deriving DecidableEq, Repr

structure ClosePartitionChunkRequest where
  dbName : String
  partitionKey : String
  tableName : String
  chunkId : List Nat
  deriving DecidableEq, Repr

structure ClosePartitionChunkResponse where
  operation : Option Operation
  deriving DecidableEq, Repr

/- ===== Handler translations (management.rs). ===== -/

/-- Translation of `list_databases` (lines 23-39): read
`server.databases()` (mapping errors through the server error handler),
keep the databases that have provided rules, and format each according to
`omit_defaults`. -/
def listDatabasesRpc (s : Server) (request : ListDatabasesRequest) :
    Except GStatus ListDatabasesResponse :=
  match s.databasesResult with
  | .error e => .error (defaultServerErrorHandler e)
  | .ok dbs =>
      .ok { rules := (dbs.filterMap Database.providedRules).map
              (fun rules => format_rules rules request.omitDefaults) }

/-- Translation of `get_database` (lines 41-76): validate the name, look
the database up, reject inactive databases with NotFound, reject databases
whose rules are not yet loaded with Unavailable, otherwise return the
formatted rules. -/
def getDatabaseRpc (s : Server) (request : GetDatabaseRequest) :
    Except GStatus GetDatabaseResponse :=
  match validateDbName request.name with
  | .error e => .error (fieldViolationStatus e)
  | .ok name =>
      match s.databaseLookup name with
      | .error e => .error (defaultServerErrorHandler e)
      | .ok database =>
          if !database.isActive then
            .error { code := .notFound, resourceType := "database", resourceName := name }
          else
            match database.providedRules with
            | some rules =>
                .ok { rules := some (format_rules rules request.omitDefaults) }
            | none =>
                .error { code := .unavailable,
                         message := "Rules have not yet been loaded for database" }

/-- The comparator `|a, b| a.db_name.cmp(&b.db_name)` used to sort the
database statuses. -/
def statusLE (a b : DatabaseStatus) : Prop :=
  a.dbName ≤ b.dbName

instance : DecidableRel statusLE :=
  fun a b => inferInstanceAs (Decidable (a.dbName ≤ b.dbName))

instance : IsTotal DatabaseStatus statusLE :=
  ⟨fun a b => le_total a.dbName b.dbName⟩

instance : IsTrans DatabaseStatus statusLE :=
  ⟨fun _ _ _ h₁ h₂ => le_trans h₁ h₂⟩

/-- The `DatabaseStatus` row built for one database. -/
def databaseStatusOf (database : Database) : DatabaseStatus :=
  { dbName := database.name
    error := database.initError.map (fun e => { message := e })
    state := database.stateCode }

/-- Translation of `get_server_status` (lines 373-410): build the status
rows (purposefully suppressing any error from `server.databases()` by
substituting the default empty list), sort them by database name, and wrap
them with the global initialized flag and init error.  The handler has no
error path, so its result type is the bare response. -/
def getServerStatusRpc (s : Server) (_request : GetServerStatusRequest) :
    Except GStatus GetServerStatusResponse :=
  let database_statuses :=
    ((s.databasesResult.map (fun dbs => dbs.map databaseStatusOf)).toOption).getD []
  let database_statuses := database_statuses.insertionSort statusLE
  let status : ServerStatus :=
    { initialized := s.initialized
      error := s.serverInitError.map (fun e => { message := e })
      databaseStatuses := database_statuses }
  .ok { serverStatus := some status }

/-- The status rows of a `get_server_status` response. -/
def responseStatuses (r : GetServerStatusResponse) : List DatabaseStatus :=
  match r.serverStatus with
  | some st => st.databaseStatuses
  | none => []

/-- Translation of `wipe_preserved_catalog` (lines 412-436): validate the
name, call `server.wipe_preserved_catalog`, mapping a
`DatabaseAlreadyExists` error to an AlreadyExists status naming the
database and every other error through the default server error handler;
on success wrap the tracker's encoded handle in the response. -/
def wipePreservedCatalogRpc (s : Server) (request : WipePreservedCatalogRequest) :
    Except GStatus WipePreservedCatalogResponse :=
  match validateDbName request.dbName with
  | .error e => .error (fieldViolationStatus e)
  | .ok db_name =>
      match s.wipePreservedCatalog db_name with
      | .error (.databaseAlreadyExists name) =>
          .error { code := .alreadyExists, resourceType := "database", resourceName := name }
      | .error e => .error (defaultServerErrorHandler e)
      | .ok tracker =>
          .ok { operation := some (encodeTracker tracker) }

/-- Translation of `skip_replay` (lines 438-458): validate the name, look
the database up through the registry, and delegate to the database state
machine's `skip_replay`, mapping its errors through the database error
handler. -/
def skipReplayRpc (s : Server) (request : SkipReplayRequest) :
    Except GStatus SkipReplayResponse :=
  match validateDbName request.dbName with
  | .error e => .error (fieldViolationStatus e)
  | .ok db_name =>
      match s.databaseLookup db_name with
      | .error e => .error (defaultServerErrorHandler e)
      | .ok database =>
          match database.skipReplay with
          | .error e => .error (defaultDatabaseErrorHandler e)
          | .ok _ => .ok {}

/-- Translation of `persist_partition` (lines 460-482): validate the name,
fetch the database's chunk/partition manager and await
`db.persist_partition(&table_name, &partition_key, false)` — the force
flag is the literal `false` — then return the empty response.  Besides the
transport result, the embedding records the persist calls forwarded to the
database layer. -/
def persistPartitionRpc (s : Server) (request : PersistPartitionRequest) :
    Except GStatus PersistPartitionResponse × List PersistCall :=
  match validateDbName request.dbName with
  | .error e => (.error (fieldViolationStatus e), [])
  | .ok db_name =>
      match s.dbResult db_name with
      | .error e => (.error (defaultServerErrorHandler e), [])
      | .ok db =>
          let call : PersistCall :=
            { tableName := request.tableName
              partitionKey := request.partitionKey
              force := false }
          match db.persistResult request.tableName request.partitionKey false with
          | .error e => (.error (defaultDbErrorHandler e), [call])
          | .ok _ => (.ok {}, [call])

/-- Translation of `close_partition_chunk` (lines 321-345): validate the
name and chunk id, call `server.close_chunk`, and return the scheduled
work's encoded tracker handle in the response without awaiting the work. -/
def closePartitionChunkRpc (s : Server) (request : ClosePartitionChunkRequest) :
    Except GStatus ClosePartitionChunkResponse :=
  match validateDbName request.dbName with
  | .error e => .error (fieldViolationStatus e)
  | .ok db_name =>
      match chunkIdTryFrom request.chunkId with
      | .error e => .error (fieldViolationStatus e)
      | .ok chunk_id =>
          match s.closeChunkResult db_name request.tableName request.partitionKey chunk_id with
          | .error e => .error (defaultServerErrorHandler e)
          | .ok tracker => .ok { operation := some (encodeTracker tracker) }

end Management

namespace TSMImport

/-- `schema::InfluxFieldType`: the column types a field may carry. -/
inductive InfluxFieldType where
  | float
  | integer
  | uinteger
  | string
  | boolean
  deriving DecidableEq, Repr

/-- Modelled from the spec: the schema crate's `InfluxFieldType::try_from`
for type-name strings — the five Influx field type names convert, any
other string is rejected (the repository's own tests accept `"Float"` and
reject `"FloatyMcFloatFace"`). -/
def InfluxFieldType.tryFromStr : String → Option InfluxFieldType
  | "Float" => some .float
  | "Integer" => some .integer
  | "Unsigned" => some .uinteger
  | "String" => some .string
  | "Boolean" => some .boolean
  | _ => none

/-- `AggregateTSMTag`: a tag name with the set of observed values (the
Rust `HashSet<String>` modelled by its element list). -/
structure AggregateTSMTag where
  name : String
  values : List String
  deriving DecidableEq, Repr

/-- `AggregateTSMField`: a field name with the set of observed type
strings (the Rust `HashSet<String>` modelled by its element list). -/
structure AggregateTSMField where
  name : String
  types : List String
  deriving DecidableEq, Repr

/-- `AggregateTSMMeasurement`: tag name → tag and field name → field maps
(the Rust `HashMap`s modelled as association lists in iteration order). -/
structure AggregateTSMMeasurement where
  tags : List (String × AggregateTSMTag)
  fields : List (String × AggregateTSMField)
  deriving DecidableEq, Repr

/-- `AggregateTSMSchema`: org, bucket and measurement-name → measurement
map. -/
structure AggregateTSMSchema where
  orgId : String
  bucketId : String
  measurements : List (String × AggregateTSMMeasurement)
  deriving DecidableEq, Repr

/-- Translation of `AggregateTSMSchema::types_are_valid` (import lib.rs
lines 21-30): every measurement's every field must carry exactly one type
string, and that string must convert to an `InfluxFieldType`.  The
`iter().next().unwrap()` under the `len() == 1` guard is the head of the
singleton element list. -/
def AggregateTSMSchema.types_are_valid (s : AggregateTSMSchema) : Bool :=
  s.measurements.all fun m =>
    m.2.fields.all fun f =>
      f.2.types.length == 1 &&
        (match f.2.types.head? with
         | some t => (InfluxFieldType.tryFromStr t).isSome
         | none => false)

/-- Rust `HashMap::insert` semantics on the association-list model: an
existing entry for the key is replaced in place, a fresh key is appended. -/
def hashMapInsert {V : Type} : List (String × V) → String → V → List (String × V)
  | [], k, v => [(k, v)]
  | (k', v') :: rest, k, v =>
      if k' = k then (k, v) :: rest else (k', v') :: hashMapInsert rest k v

/-- Collecting an iterator of key-value pairs into a `HashMap`: entries
are inserted left to right, so a later entry for a duplicate key silently
replaces the earlier one. -/
def hashMapCollect {V : Type} (l : List (String × V)) : List (String × V) :=
  l.foldl (fun m kv => hashMapInsert m kv.1 kv.2) []

/-- Translation of `serialize_map_values` (lib.rs lines 49-55): a map
serializes as the sequence of its values. -/
def serialize_map_values {V : Type} (value : List (String × V)) : List V :=
  value.map Prod.snd

/-- Translation of `deserialize_tags` (lib.rs lines 57-63): read a vector
of tags and collect it into a map keyed by each tag's own `name`. -/
def deserialize_tags (v : List AggregateTSMTag) : List (String × AggregateTSMTag) :=
  hashMapCollect (v.map fun t => (t.name, t))

/-- Translation of `deserialize_fields` (lib.rs lines 65-73): read a
vector of fields and collect it into a map keyed by each field's own
`name`. -/
def deserialize_fields (v : List AggregateTSMField) : List (String × AggregateTSMField) :=
  hashMapCollect (v.map fun f => (f.name, f))

/-- The serialized (wire) form of a measurement: the tag and field maps
rendered as value sequences by `serialize_map_values`. -/
structure MeasurementWire where
  tags : List AggregateTSMTag
  fields : List AggregateTSMField
  deriving DecidableEq, Repr

/-- The serialized (wire) form of a schema: org, bucket, and the
measurements map with each measurement in wire form. -/
structure SchemaWire where
  orgId : String
  bucketId : String
  measurements : List (String × MeasurementWire)
  deriving DecidableEq, Repr

/-- Serde serialization of one measurement: both maps go through
`serialize_map_values`. -/
def serializeMeasurement (m : AggregateTSMMeasurement) : MeasurementWire :=
  { tags := serialize_map_values m.tags
    fields := serialize_map_values m.fields }

/-- Serde deserialization of one measurement: tags through
`deserialize_tags`, fields through `deserialize_fields`. -/
def deserializeMeasurement (w : MeasurementWire) : AggregateTSMMeasurement :=
  { tags := deserialize_tags w.tags
    fields := deserialize_fields w.fields }

/-- Serde serialization of a whole schema (the measurements map itself is
serialized keyed by measurement name, each value in wire form). -/
def serializeSchema (s : AggregateTSMSchema) : SchemaWire :=
  { orgId := s.orgId
    bucketId := s.bucketId
    measurements := s.measurements.map fun kv => (kv.1, serializeMeasurement kv.2) }

/-- Serde deserialization of a whole schema, as exercised by
`TryFrom<&str> for AggregateTSMSchema` (lib.rs lines 95-101). -/
def deserializeSchema (w : SchemaWire) : AggregateTSMSchema :=
  { orgId := w.orgId
    bucketId := w.bucketId
    measurements := w.measurements.map fun kv => (kv.1, deserializeMeasurement kv.2) }

/-- A measurement is well-keyed when each tag and field map entry is keyed
by the entry's own name and the keys are distinct. -/
def MeasurementWellKeyed (m : AggregateTSMMeasurement) : Prop :=
  (∀ kv ∈ m.tags, kv.1 = kv.2.name) ∧ (m.tags.map Prod.fst).Nodup ∧
  (∀ kv ∈ m.fields, kv.1 = kv.2.name) ∧ (m.fields.map Prod.fst).Nodup

instance (m : AggregateTSMMeasurement) : Decidable (MeasurementWellKeyed m) := by
  unfold MeasurementWellKeyed
  exact inferInstance

/-- A schema is well-keyed when each of its measurements is. -/
def SchemaWellKeyed (s : AggregateTSMSchema) : Prop :=
  ∀ kv ∈ s.measurements, MeasurementWellKeyed kv.2

instance (s : AggregateTSMSchema) : Decidable (SchemaWellKeyed s) := by
  unfold SchemaWellKeyed
  exact inferInstance

end TSMImport

/-! ## Sample data used by witnesses and counterexamples -/

namespace Management

/-- Rules as a tenant submits them for the database "metrics". -/
def sampleRules : DatabaseRules := { name := "metrics" }

/-- The provided-rules record for `sampleRules`: original as submitted,
active rules merged with defaults. -/
def sampleProvided : ProvidedDatabaseRules :=
  { original := sampleRules, rules := mergeDefaults sampleRules }

/-- A fully initialized sample database. -/
def sampleDb : Database :=
  { name := "metrics", providedRules := some sampleProvided, isActive := true
    stateCode := .initialized, initError := none }

/-- A sample database stuck in replay error. -/
def sampleReplayErrDb : Database :=
  { name := "wal", providedRules := some sampleProvided, isActive := true
    stateCode := .replayError, initError := some "replay failed" }

def sampleOp : Operation := { id := 1, description := "tracked job" }

/-- A chunk/partition manager whose persist always succeeds. -/
def sampleDbLayer : Db :=
  { persistResult := fun _ _ _ => .ok ()
    dropResult := fun _ _ => .ok () }

/-- A chunk/partition manager whose persist work fails. -/
def failingDbLayer : Db :=
  { persistResult := fun _ _ _ => .error (.lifecycleError "cannot persist")
    dropResult := fun _ _ => .ok () }

/-- A healthy sample server with two databases. -/
def sampleServer : Server :=
  { initialized := true
    serverInitError := none
    databasesResult := .ok [sampleDb, sampleReplayErrDb]
    knownDatabases := [sampleDb, sampleReplayErrDb]
    creatingDbs := []
    wipeTracker := fun _ => sampleOp
    closeChunkResult := fun _ _ _ _ => .ok sampleOp
    dbResult := fun _ => .ok sampleDbLayer }

/-- Like `sampleServer`, but every persist the control surface awaits
fails inside the persistence work. -/
def samplePersistErrServer : Server :=
  { sampleServer with dbResult := fun _ => .ok failingDbLayer }

/-- A server that has not finished bootstrapping: listing databases
errors. -/
def sampleUninitServer : Server :=
  { initialized := false
    serverInitError := some "boot failed"
    databasesResult := .error .serverNotInitialized
    knownDatabases := []
    creatingDbs := ["metrics"]
    wipeTracker := fun _ => sampleOp
    closeChunkResult := fun _ _ _ _ => .error .serverNotInitialized
    dbResult := fun _ => .error .serverNotInitialized }

def samplePersistReq : PersistPartitionRequest :=
  { dbName := "metrics", partitionKey := "2023-01-01T00", tableName := "cpu" }

def sampleCloseReq : ClosePartitionChunkRequest :=
  { dbName := "metrics", partitionKey := "2023-01-01T00", tableName := "cpu"
    chunkId := [0, 0, 0, 0, 0, 0, 0, 0, 0, 0, 0, 0, 0, 0, 0, 7] }

end Management

/-! ## Claim theorems -/

namespace Management

/-- **C2.** For every database with loaded provided rules, `list_databases`
with `omit_defaults = true` returns exactly the rules the tenant originally
submitted, and with `omit_defaults = false` the active rules, i.e. the
submitted rules merged with defaults. -/
theorem list_databases_omit_defaults (s : Server) (dbs : List Database)
    (hdbs : s.databasesResult = .ok dbs)
    (hinv : ∀ db ∈ dbs, ∀ pr, db.providedRules = some pr →
      pr.rules = mergeDefaults pr.original) :
    listDatabasesRpc s { omitDefaults := true } =
      .ok { rules := (dbs.filterMap Database.providedRules).map
              ProvidedDatabaseRules.original } ∧
    listDatabasesRpc s { omitDefaults := false } =
      .ok { rules := (dbs.filterMap Database.providedRules).map
              (fun pr => mergeDefaults pr.original) } := by
  constructor
  · simp [listDatabasesRpc, hdbs, format_rules]
  · have h : ∀ pr ∈ dbs.filterMap Database.providedRules,
        pr.rules = mergeDefaults pr.original := by
      intro pr hpr
      rcases List.mem_filterMap.mp hpr with ⟨db, hdb, hsome⟩
      exact hinv db hdb pr hsome
    simp only [listDatabasesRpc, hdbs, format_rules, Bool.false_eq_true, if_false,
      Except.ok.injEq, ListDatabasesResponse.mk.injEq]
    exact List.map_congr_left h

/-- Witness for C2 at the sample server. -/
theorem list_databases_omit_defaults_witness :
    listDatabasesRpc sampleServer { omitDefaults := true } =
      .ok { rules := [sampleProvided.original, sampleProvided.original] } ∧
    listDatabasesRpc sampleServer { omitDefaults := false } =
      .ok { rules := [mergeDefaults sampleProvided.original,
                      mergeDefaults sampleProvided.original] } := by
  have h := list_databases_omit_defaults sampleServer [sampleDb, sampleReplayErrDb] rfl
    (by
      intro db hdb pr hpr
      rcases List.mem_cons.mp hdb with rfl | hdb
      · cases hpr; rfl
      · rcases List.mem_singleton.mp hdb with rfl
        cases hpr; rfl)
  simpa using h

/-- **C8.** `get_database` on a known database that is not active fails
with NotFound; on an active database whose provided rules have not yet
been loaded it fails with Unavailable; it returns the rules (formatted per
`omit_defaults`) exactly when the database is active and its rules are
loaded. -/
theorem get_database_active_loaded_gate (s : Server) (raw name : String) (od : Bool)
    (db : Database)
    (hname : validateDbName raw = .ok name)
    (hfound : s.databaseLookup name = .ok db) :
    (db.isActive = false →
      getDatabaseRpc s { name := raw, omitDefaults := od } =
        .error { code := .notFound, resourceType := "database", resourceName := name }) ∧
    (db.isActive = true → db.providedRules = none →
      getDatabaseRpc s { name := raw, omitDefaults := od } =
        .error { code := .unavailable,
                 message := "Rules have not yet been loaded for database" }) ∧
    (∀ pr, db.isActive = true → db.providedRules = some pr →
      getDatabaseRpc s { name := raw, omitDefaults := od } =
        .ok { rules := some (format_rules pr od) }) := by
  refine ⟨?_, ?_, ?_⟩
  · intro hact
    simp [getDatabaseRpc, hname, hfound, hact]
  · intro hact hrules
    simp [getDatabaseRpc, hname, hfound, hact, hrules]
  · intro pr hact hrules
    simp [getDatabaseRpc, hname, hfound, hact, hrules]

/-- Witness for C8: an inactive database gives NotFound, a loaded active
one its formatted rules. -/
theorem get_database_active_loaded_gate_witness :
    getDatabaseRpc
        { sampleServer with
          knownDatabases :=
            [{ sampleDb with isActive := false }] }
        { name := "metrics", omitDefaults := true } =
      .error { code := .notFound, resourceType := "database", resourceName := "metrics" } ∧
    getDatabaseRpc sampleServer { name := "metrics", omitDefaults := true } =
      .ok { rules := some (format_rules sampleProvided true) } := by
  constructor
  · exact (get_database_active_loaded_gate
      { sampleServer with knownDatabases := [{ sampleDb with isActive := false }] }
      "metrics" "metrics" true { sampleDb with isActive := false }
      rfl rfl).1 rfl
  · exact (get_database_active_loaded_gate sampleServer "metrics" "metrics" true sampleDb
      rfl rfl).2.2 sampleProvided rfl rfl

/-- **C3.** `skip_replay` succeeds only from the `ReplayError` lifecycle
state; in any other state it fails with InvalidState, and with NotFound
when the database name is unknown. -/
theorem skip_replay_state_gate (s : Server) (raw name : String)
    (hname : validateDbName raw = .ok name) :
    (∀ db, s.databaseLookup name = .ok db →
      ((db.stateCode = .replayError →
          skipReplayRpc s { dbName := raw } = .ok {}) ∧
       (db.stateCode ≠ .replayError →
          skipReplayRpc s { dbName := raw } =
            .error { code := .invalidState,
                     message := "database is not in the expected state" }))) ∧
    (s.knownDatabases.find? (fun db => db.name = name) = none →
      skipReplayRpc s { dbName := raw } =
        .error { code := .notFound, resourceType := "database", resourceName := name }) := by
  constructor
  · intro db hdb
    constructor
    · intro hstate
      simp [skipReplayRpc, hname, hdb, Database.skipReplay, hstate]
    · intro hstate
      simp [skipReplayRpc, hname, hdb, Database.skipReplay, hstate,
        defaultDatabaseErrorHandler]
  · intro hnone
    simp [skipReplayRpc, hname, Server.databaseLookup, hnone,
      defaultServerErrorHandler]

/-- Witness for C3: skipping replay succeeds on the replay-error database,
fails with InvalidState on the initialized one, and NotFound on an unknown
name. -/
theorem skip_replay_state_gate_witness :
    skipReplayRpc sampleServer { dbName := "wal" } = .ok {} ∧
    skipReplayRpc sampleServer { dbName := "metrics" } =
      .error { code := .invalidState,
               message := "database is not in the expected state" } ∧
    skipReplayRpc sampleServer { dbName := "absent" } =
      .error { code := .notFound, resourceType := "database", resourceName := "absent" } := by
  refine ⟨?_, ?_, ?_⟩
  · exact ((skip_replay_state_gate sampleServer "wal" "wal" rfl).1
      sampleReplayErrDb rfl).1 rfl
  · exact ((skip_replay_state_gate sampleServer "metrics" "metrics" rfl).1
      sampleDb rfl).2 (by decide)
  · exact (skip_replay_state_gate sampleServer "absent" "absent" rfl).2 rfl

/-- **C4.** `wipe_preserved_catalog` on a database that is mid-creation
fails with AlreadyExists naming the database; when accepted, the rebuild's
tracked-operation handle is returned in the response. -/
theorem wipe_preserved_catalog_gate (s : Server) (raw name : String)
    (hname : validateDbName raw = .ok name) :
    (name ∈ s.creatingDbs →
      wipePreservedCatalogRpc s { dbName := raw } =
        .error { code := .alreadyExists, resourceType := "database",
                 resourceName := name }) ∧
    (name ∉ s.creatingDbs →
      ∀ db, s.knownDatabases.find? (fun d => d.name = name) = some db →
        wipePreservedCatalogRpc s { dbName := raw } =
          .ok { operation := some (encodeTracker (s.wipeTracker name)) }) := by
  constructor
  · intro hmid
    simp [wipePreservedCatalogRpc, hname, Server.wipePreservedCatalog, hmid]
  · intro hmid db hdb
    simp [wipePreservedCatalogRpc, hname, Server.wipePreservedCatalog, hmid, hdb]

/-- Witness for C4: wiping "metrics" mid-creation on the bootstrapping
server errors AlreadyExists; on the healthy server the tracker handle
comes back. -/
theorem wipe_preserved_catalog_gate_witness :
    wipePreservedCatalogRpc sampleUninitServer { dbName := "metrics" } =
      .error { code := .alreadyExists, resourceType := "database",
               resourceName := "metrics" } ∧
    wipePreservedCatalogRpc sampleServer { dbName := "metrics" } =
      .ok { operation := some (encodeTracker (sampleServer.wipeTracker "metrics")) } := by
  constructor
  · exact (wipe_preserved_catalog_gate sampleUninitServer "metrics" "metrics"
      rfl).1 (by decide)
  · exact (wipe_preserved_catalog_gate sampleServer "metrics" "metrics"
      rfl).2 (by decide) sampleDb rfl

/-- **C6.** `GetServerStatus` has no failure modes: every call returns a
successful response, and when listing the databases errors the
database-status list is empty rather than the call failing. -/
theorem get_server_status_never_fails (s : Server) :
    (∃ r, getServerStatusRpc s {} = .ok r) ∧
    (∀ e, s.databasesResult = .error e →
      ∃ r, getServerStatusRpc s {} = .ok r ∧ responseStatuses r = []) := by
  constructor
  · exact ⟨_, rfl⟩
  · intro e he
    refine ⟨_, rfl, ?_⟩
    simp [getServerStatusRpc, responseStatuses, he, List.insertionSort]

/-- Witness for C6 on the server whose bootstrap failed: the call still
succeeds, with an empty status list. -/
theorem get_server_status_never_fails_witness :
    sampleUninitServer.databasesResult = Except.error ServerError.serverNotInitialized ∧
    ∃ r, getServerStatusRpc sampleUninitServer {} = .ok r ∧ responseStatuses r = [] :=
  ⟨rfl, (get_server_status_never_fails sampleUninitServer).2 .serverNotInitialized rfl⟩

/-- Every chunk/partition persist call the control surface forwards
carries `force = false` (the handler passes the literal). -/
theorem persistCalls_force_eq_false (s : Server) (req : PersistPartitionRequest) :
    ∀ c ∈ (persistPartitionRpc s req).2, c.force = false := by
  intro c hc
  unfold persistPartitionRpc at hc
  cases hv : validateDbName req.dbName with
  | error e => simp [hv] at hc
  | ok db_name =>
    simp only [hv] at hc
    cases hd : s.dbResult db_name with
    | error e => simp [hd] at hc
    | ok db =>
      simp only [hd] at hc
      cases hp : db.persistResult req.tableName req.partitionKey false with
      | error e =>
        simp only [hp, List.mem_singleton] at hc
        rw [hc]
      | ok u =>
        simp only [hp, List.mem_singleton] at hc
        rw [hc]

/-- C7 counterexample: no request at all can make the control surface
forward `force = true` to the partition persist — the message carries no
force flag and the handler passes the literal `false`. -/
theorem persist_partition_force_counterexample :
    ¬ ∃ (s : Server) (req : PersistPartitionRequest) (c : PersistCall),
        c ∈ (persistPartitionRpc s req).2 ∧ c.force = true := by
  rintro ⟨s, req, c, hc, hforce⟩
  have hfalse := persistCalls_force_eq_false s req c hc
  rw [hfalse] at hforce
  exact Bool.noConfusion hforce

/-- **C7 (amended).** The PersistPartition control-surface operation takes
no caller-supplied force flag: it always invokes the partition persist
operation with `force = false`, which persists only the eligible
(immutable, not yet durably written) chunks. -/
theorem persist_partition_always_nonforce (s : Server) (req : PersistPartitionRequest)
    (c : PersistCall) (hc : c ∈ (persistPartitionRpc s req).2) : c.force = false :=
  persistCalls_force_eq_false s req c hc

/-- Witness for amended C7: the sample request's one forwarded call has
`force = false`. -/
theorem persist_partition_always_nonforce_witness :
    ({ tableName := "cpu", partitionKey := "2023-01-01T00", force := false } :
        PersistCall) ∈ (persistPartitionRpc sampleServer samplePersistReq).2 ∧
    ({ tableName := "cpu", partitionKey := "2023-01-01T00", force := false } :
        PersistCall).force = false := by
  refine ⟨?_, ?_⟩
  · exact List.mem_singleton.mpr rfl
  · exact persist_partition_always_nonforce sampleServer samplePersistReq _
      (List.mem_singleton.mpr rfl)

/-- C1 counterexample: at a concrete accepted request, the PersistPartition
call's result is the awaited persistence work's own outcome — the empty
(handle-free) response when the work succeeds, the work's error when it
fails — so the call returns the completion of the work, not a pollable
operation handle for scheduled work. -/
theorem persist_partition_no_handle_counterexample :
    (persistPartitionRpc sampleServer samplePersistReq).1 =
      .ok PersistPartitionResponse.mk ∧
    (persistPartitionRpc samplePersistErrServer samplePersistReq).1 =
      .error { code := .internal, message := "cannot persist" } ∧
    (persistPartitionRpc sampleServer samplePersistReq).1 ≠
      (persistPartitionRpc samplePersistErrServer samplePersistReq).1 := by
  have h1 : (persistPartitionRpc sampleServer samplePersistReq).1 =
      .ok PersistPartitionResponse.mk := rfl
  have h2 : (persistPartitionRpc samplePersistErrServer samplePersistReq).1 =
      .error { code := .internal, message := "cannot persist" } := rfl
  refine ⟨h1, h2, ?_⟩
  rw [h1, h2]
  exact fun h => Except.noConfusion h

/-- **C1 (amended).** An accepted ClosePartitionChunk request returns the
scheduled work's operation handle in its response; an accepted
PersistPartition request instead awaits the partition persist inline — its
response is empty (no operation handle) and errors of the persistence work
surface directly in the call's result. -/
theorem close_chunk_tracked_persist_awaited (s : Server)
    (reqP : PersistPartitionRequest) (reqC : ClosePartitionChunkRequest)
    (nameP nameC : String) (db : Db) (tracker : Operation) (chunk : List Nat)
    (hnp : validateDbName reqP.dbName = .ok nameP)
    (hdb : s.dbResult nameP = .ok db)
    (hnc : validateDbName reqC.dbName = .ok nameC)
    (hcid : chunkIdTryFrom reqC.chunkId = .ok chunk)
    (hclose : s.closeChunkResult nameC reqC.tableName reqC.partitionKey chunk =
      .ok tracker) :
    closePartitionChunkRpc s reqC =
      .ok { operation := some (encodeTracker tracker) } ∧
    (db.persistResult reqP.tableName reqP.partitionKey false = .ok () →
      persistPartitionRpc s reqP =
        (.ok {}, [{ tableName := reqP.tableName, partitionKey := reqP.partitionKey,
                    force := false }])) ∧
    (∀ e, db.persistResult reqP.tableName reqP.partitionKey false = .error e →
      (persistPartitionRpc s reqP).1 = .error (defaultDbErrorHandler e)) := by
  refine ⟨?_, ?_, ?_⟩
  · simp [closePartitionChunkRpc, hnc, hcid, hclose]
  · intro hok
    simp [persistPartitionRpc, hnp, hdb, hok]
  · intro e herr
    simp [persistPartitionRpc, hnp, hdb, herr]

/-- Witness for amended C1 at the sample server: the close-chunk response
carries the tracker handle, the persist response is empty. -/
theorem close_chunk_tracked_persist_awaited_witness :
    closePartitionChunkRpc sampleServer sampleCloseReq =
      .ok { operation := some (encodeTracker sampleOp) } ∧
    persistPartitionRpc sampleServer samplePersistReq =
      (.ok {}, [{ tableName := "cpu", partitionKey := "2023-01-01T00",
                  force := false }]) := by
  have h := close_chunk_tracked_persist_awaited sampleServer samplePersistReq
    sampleCloseReq "metrics" "metrics" sampleDbLayer sampleOp sampleCloseReq.chunkId
    rfl rfl rfl rfl rfl
  exact ⟨h.1, h.2.1 rfl⟩

/-- Strict version of the status comparator, used to show that sorting by
name is deterministic when the names are distinct. -/
def statusLT (a b : DatabaseStatus) : Prop :=
  a.dbName < b.dbName

instance : IsAntisymm DatabaseStatus statusLT :=
  ⟨fun _ _ h₁ h₂ => absurd h₂ (not_lt_of_le (le_of_lt h₁))⟩

/-- A status list sorted by name whose names are distinct is strictly
sorted by name. -/
theorem sorted_lt_of_sorted_le_nodup {l : List DatabaseStatus}
    (hs : l.Sorted statusLE) (hn : (l.map DatabaseStatus.dbName).Nodup) :
    l.Sorted statusLT := by
  have hp : l.Pairwise (fun a b => a.dbName ≠ b.dbName) := List.pairwise_map.mp hn
  have hand := List.Pairwise.and hs hp
  exact hand.imp (fun h => lt_of_le_of_ne h.1 h.2)

/-- The status rows a `get_server_status` response carries, computed from
the server state. -/
theorem responseStatuses_spec (s : Server) (r : GetServerStatusResponse)
    (h : getServerStatusRpc s {} = .ok r) :
    responseStatuses r =
      (((s.databasesResult.map (fun dbs => dbs.map databaseStatusOf)).toOption).getD
        []).insertionSort statusLE := by
  have hr := Except.ok.inj h
  rw [← hr]
  rfl

/-- **C5.** `get_server_status` always returns the per-database statuses
sorted ascending by database name, and for a fixed set of databases (with
their unique names) the output order is deterministic: two servers whose
database lists are permutations of one another produce identical status
lists. -/
theorem get_server_status_sorted_deterministic :
    (∀ (s : Server) (r : GetServerStatusResponse), getServerStatusRpc s {} = .ok r →
      (responseStatuses r).Sorted statusLE) ∧
    (∀ (s₁ s₂ : Server) (r₁ r₂ : GetServerStatusResponse)
        (dbs₁ dbs₂ : List Database),
      getServerStatusRpc s₁ {} = .ok r₁ → getServerStatusRpc s₂ {} = .ok r₂ →
      s₁.databasesResult = .ok dbs₁ → s₂.databasesResult = .ok dbs₂ →
      dbs₁.Perm dbs₂ → (dbs₂.map Database.name).Nodup →
      responseStatuses r₁ = responseStatuses r₂) := by
  constructor
  · intro s r h
    rw [responseStatuses_spec s r h]
    exact List.sorted_insertionSort statusLE _
  · intro s₁ s₂ r₁ r₂ dbs₁ dbs₂ h₁ h₂ hd₁ hd₂ hperm hnodup
    rw [responseStatuses_spec s₁ r₁ h₁, responseStatuses_spec s₂ r₂ h₂, hd₁, hd₂]
    set l₁ := dbs₁.map databaseStatusOf with hl₁
    set l₂ := dbs₂.map databaseStatusOf with hl₂
    have hlperm : l₁.Perm l₂ := hperm.map databaseStatusOf
    have hnames₂ : (l₂.map DatabaseStatus.dbName).Nodup := by
      rw [hl₂, List.map_map]
      exact hnodup
    have hout₂ : ((l₂.insertionSort statusLE).map DatabaseStatus.dbName).Nodup := by
      have hp : (l₂.insertionSort statusLE).Perm l₂ := List.perm_insertionSort statusLE l₂
      exact ((hp.map DatabaseStatus.dbName).nodup_iff).mpr hnames₂
    have hout₁ : ((l₁.insertionSort statusLE).map DatabaseStatus.dbName).Nodup := by
      have hp : (l₁.insertionSort statusLE).Perm l₂ :=
        (List.perm_insertionSort statusLE l₁).trans hlperm
      exact ((hp.map DatabaseStatus.dbName).nodup_iff).mpr hnames₂
    have hpermsort : (l₁.insertionSort statusLE).Perm (l₂.insertionSort statusLE) :=
      ((List.perm_insertionSort statusLE l₁).trans hlperm).trans
        (List.perm_insertionSort statusLE l₂).symm
    exact List.eq_of_perm_of_sorted hpermsort
      (sorted_lt_of_sorted_le_nodup (List.sorted_insertionSort statusLE l₁) hout₁)
      (sorted_lt_of_sorted_le_nodup (List.sorted_insertionSort statusLE l₂) hout₂)

/-- Witness for C5: two sample servers holding the same two databases in
opposite orders report the identical, name-sorted status list. -/
theorem get_server_status_sorted_deterministic_witness :
    (responseStatuses
        ((getServerStatusRpc sampleServer {}).toOption.getD { serverStatus := none })).Sorted
      statusLE ∧
    responseStatuses
        ((getServerStatusRpc sampleServer {}).toOption.getD { serverStatus := none }) =
      responseStatuses
        ((getServerStatusRpc
            { sampleServer with databasesResult := .ok [sampleReplayErrDb, sampleDb] }
            {}).toOption.getD { serverStatus := none }) := by
  constructor
  · exact (get_server_status_sorted_deterministic).1 sampleServer _ rfl
  · exact (get_server_status_sorted_deterministic).2 sampleServer
      { sampleServer with databasesResult := .ok [sampleReplayErrDb, sampleDb] }
      _ _ [sampleDb, sampleReplayErrDb] [sampleReplayErrDb, sampleDb]
      rfl rfl rfl rfl (List.Perm.swap _ _ _) (by decide)

end Management

namespace TSMImport

/-- The per-field check of `types_are_valid` holds exactly when the field
carries a single type string that names a valid Influx field type. -/
theorem field_types_check_iff (f : AggregateTSMField) :
    (f.types.length == 1 &&
      (match f.types.head? with
       | some t => (InfluxFieldType.tryFromStr t).isSome
       | none => false)) = true ↔
    ∃ t, f.types = [t] ∧ (InfluxFieldType.tryFromStr t).isSome = true := by
  cases hty : f.types with
  | nil => simp [hty]
  | cons a rest =>
    cases rest with
    | nil => simp [hty]
    | cons b rest2 => simp [hty]

/-- **C9.** `types_are_valid` returns true iff every field of every
measurement has exactly one type string and that string converts to a
valid `InfluxFieldType`; in particular it is true for a schema with no
measurements and for a measurement with no fields. -/
theorem types_are_valid_iff :
    (∀ s : AggregateTSMSchema,
      s.types_are_valid = true ↔
        ∀ m ∈ s.measurements, ∀ f ∈ m.2.fields,
          ∃ t, f.2.types = [t] ∧ (InfluxFieldType.tryFromStr t).isSome = true) ∧
    (∀ o b, (AggregateTSMSchema.mk o b []).types_are_valid = true) ∧
    (∀ o b n tags,
      (AggregateTSMSchema.mk o b
        [(n, { tags := tags, fields := [] })]).types_are_valid = true) := by
  refine ⟨?_, ?_, ?_⟩
  · intro s
    unfold AggregateTSMSchema.types_are_valid
    rw [List.all_eq_true]
    constructor
    · intro h m hm f hf
      have hfields := (List.all_eq_true.mp (h m hm)) f hf
      exact (field_types_check_iff f.2).mp hfields
    · intro h m hm
      rw [List.all_eq_true]
      intro f hf
      exact (field_types_check_iff f.2).mpr (h m hm f hf)
  · intro o b
    rfl
  · intro o b n tags
    rfl

/-- Inserting a key absent from the map appends the new entry. -/
theorem hashMapInsert_of_not_mem {V : Type} (m : List (String × V)) (k : String) (v : V)
    (hk : k ∉ m.map Prod.fst) : hashMapInsert m k v = m ++ [(k, v)] := by
  induction m with
  | nil => rfl
  | cons kv rest ih =>
    obtain ⟨k', v'⟩ := kv
    simp only [List.map_cons, List.mem_cons] at hk
    push_neg at hk
    have hne : ¬ k' = k := fun h => hk.1 h.symm
    show (if k' = k then (k, v) :: rest else (k', v') :: hashMapInsert rest k v) = _
    rw [if_neg hne, ih hk.2]
    rfl

/-- Collecting a list of entries with pairwise-distinct keys returns the
list itself, whatever the accumulated map so far (provided its keys are
fresh too). -/
theorem foldl_hashMapInsert_of_nodup {V : Type} (l : List (String × V)) :
    ∀ acc : List (String × V), ((acc ++ l).map Prod.fst).Nodup →
      l.foldl (fun m kv => hashMapInsert m kv.1 kv.2) acc = acc ++ l := by
  induction l with
  | nil => intro acc _; simp
  | cons kv rest ih =>
    intro acc h
    obtain ⟨k, v⟩ := kv
    have hmid : ((k, v) :: (acc ++ rest)).map Prod.fst |>.Nodup := by
      have := List.nodup_middle.mp (by simpa using h)
      simpa using this
    have hk : k ∉ acc.map Prod.fst := by
      intro hmem
      exact (List.nodup_cons.mp hmid).1 (by
        simp only [List.map_append, List.mem_append]
        exact Or.inl hmem)
    rw [List.foldl_cons]
    show List.foldl _ (hashMapInsert acc k v) rest = acc ++ (k, v) :: rest
    rw [hashMapInsert_of_not_mem acc k v hk]
    rw [ih (acc ++ [(k, v)]) (by simpa using h)]
    simp

/-- `hashMapCollect` is the identity on association lists with distinct
keys. -/
theorem hashMapCollect_of_nodup {V : Type} (l : List (String × V))
    (h : (l.map Prod.fst).Nodup) : hashMapCollect l = l := by
  unfold hashMapCollect
  have := foldl_hashMapInsert_of_nodup l [] (by simpa using h)
  simpa using this

/-- The keys of `hashMapInsert m k v` are among `k` and the keys of `m`. -/
theorem mem_keys_hashMapInsert {V : Type} (m : List (String × V)) (k : String) (v : V) :
    ∀ x ∈ (hashMapInsert m k v).map Prod.fst, x = k ∨ x ∈ m.map Prod.fst := by
  induction m with
  | nil =>
    intro x hx
    rw [show hashMapInsert ([] : List (String × V)) k v = [(k, v)] from rfl] at hx
    simp only [List.map_cons, List.map_nil, List.mem_singleton] at hx
    exact Or.inl hx
  | cons kv rest ih =>
    obtain ⟨k', v'⟩ := kv
    intro x hx
    rw [show hashMapInsert ((k', v') :: rest) k v =
        (if k' = k then (k, v) :: rest else (k', v') :: hashMapInsert rest k v) from rfl] at hx
    by_cases hkk : k' = k
    · rw [if_pos hkk] at hx
      simp only [List.map_cons, List.mem_cons] at hx
      rcases hx with rfl | hx
      · exact Or.inl rfl
      · exact Or.inr (by simp [hx])
    · rw [if_neg hkk] at hx
      simp only [List.map_cons, List.mem_cons] at hx
      rcases hx with rfl | hx
      · exact Or.inr (by simp)
      · rcases ih x hx with h | h
        · exact Or.inl h
        · exact Or.inr (by simp [h])

/-- Inserting preserves distinctness of keys. -/
theorem nodup_keys_hashMapInsert {V : Type} (m : List (String × V)) (k : String) (v : V)
    (h : (m.map Prod.fst).Nodup) : ((hashMapInsert m k v).map Prod.fst).Nodup := by
  induction m with
  | nil => simp [hashMapInsert]
  | cons kv rest ih =>
    obtain ⟨k', v'⟩ := kv
    simp only [List.map_cons, List.nodup_cons] at h
    rw [show hashMapInsert ((k', v') :: rest) k v =
        (if k' = k then (k, v) :: rest else (k', v') :: hashMapInsert rest k v) from rfl]
    by_cases hkk : k' = k
    · rw [if_pos hkk]
      simp only [List.map_cons, List.nodup_cons]
      exact ⟨hkk ▸ h.1, h.2⟩
    · rw [if_neg hkk]
      simp only [List.map_cons, List.nodup_cons]
      refine ⟨?_, ih h.2⟩
      intro hmem
      rcases mem_keys_hashMapInsert rest k v k' hmem with h' | h'
      · exact hkk h'
      · exact h.1 h'

/-- Every entry of `hashMapInsert m k v` is `(k, v)` or an entry of `m`. -/
theorem mem_hashMapInsert {V : Type} (m : List (String × V)) (k : String) (v : V) :
    ∀ kv ∈ hashMapInsert m k v, kv = (k, v) ∨ kv ∈ m := by
  induction m with
  | nil =>
    intro kv hkv
    rw [show hashMapInsert ([] : List (String × V)) k v = [(k, v)] from rfl] at hkv
    exact Or.inl (List.mem_singleton.mp hkv)
  | cons kv' rest ih =>
    obtain ⟨k', v'⟩ := kv'
    intro kv hkv
    rw [show hashMapInsert ((k', v') :: rest) k v =
        (if k' = k then (k, v) :: rest else (k', v') :: hashMapInsert rest k v) from rfl] at hkv
    by_cases hkk : k' = k
    · rw [if_pos hkk] at hkv
      rcases List.mem_cons.mp hkv with rfl | hkv
      · exact Or.inl rfl
      · exact Or.inr (by simp [hkv])
    · rw [if_neg hkk] at hkv
      rcases List.mem_cons.mp hkv with rfl | hkv
      · exact Or.inr (by simp)
      · rcases ih kv hkv with h | h
        · exact Or.inl h
        · exact Or.inr (by simp [h])

/-- The collected map has distinct keys: one entry per duplicate name. -/
theorem nodup_keys_hashMapCollect {V : Type} (l : List (String × V)) :
    ((hashMapCollect l).map Prod.fst).Nodup := by
  suffices h : ∀ acc : List (String × V), (acc.map Prod.fst).Nodup →
      ((l.foldl (fun m kv => hashMapInsert m kv.1 kv.2) acc).map Prod.fst).Nodup by
    exact h [] (by simp)
  induction l with
  | nil => intro acc hacc; simpa using hacc
  | cons kv rest ih =>
    intro acc hacc
    rw [List.foldl_cons]
    exact ih _ (nodup_keys_hashMapInsert acc kv.1 kv.2 hacc)

/-- Entries of the collected map all come from the input list. -/
theorem mem_hashMapCollect {V : Type} (l : List (String × V)) :
    ∀ kv ∈ hashMapCollect l, kv ∈ l := by
  suffices h : ∀ acc : List (String × V),
      ∀ kv ∈ l.foldl (fun m kv => hashMapInsert m kv.1 kv.2) acc, kv ∈ acc ∨ kv ∈ l by
    intro kv hkv
    rcases h [] kv hkv with h' | h'
    · simp at h'
    · exact h'
  induction l with
  | nil => intro acc kv hkv; exact Or.inl hkv
  | cons kv0 rest ih =>
    intro acc kv hkv
    rw [List.foldl_cons] at hkv
    rcases ih (hashMapInsert acc kv0.1 kv0.2) kv hkv with h' | h'
    · rcases mem_hashMapInsert acc kv0.1 kv0.2 kv h' with h'' | h''
      · right
        simp only [List.mem_cons]
        left
        rw [h'']
      · exact Or.inl h''
    · right
      simp only [List.mem_cons]
      exact Or.inr h'

/-- Collecting entries keyed by their value's own name gives back the
original association list when its keys are its values' names and
distinct. -/
theorem collect_by_name_roundtrip {V : Type} (nameOf : V → String)
    (m : List (String × V))
    (hkey : ∀ kv ∈ m, kv.1 = nameOf kv.2) (hnodup : (m.map Prod.fst).Nodup) :
    hashMapCollect ((m.map Prod.snd).map (fun v => (nameOf v, v))) = m := by
  rw [List.map_map]
  have hmap : m.map ((fun v => (nameOf v, v)) ∘ Prod.snd) = m := by
    have h := List.map_congr_left (l := m)
      (f := (fun v => (nameOf v, v)) ∘ Prod.snd) (g := id) ?_
    · rw [h, List.map_id]
    · intro kv hkv
      obtain ⟨k, v⟩ := kv
      have := hkey (k, v) hkv
      simp only [Function.comp_apply, id_eq]
      rw [← this]
  rw [hmap]
  exact hashMapCollect_of_nodup m hnodup

/-- Round trip for one measurement with well-keyed tag and field maps. -/
theorem deserializeMeasurement_serializeMeasurement (m : AggregateTSMMeasurement)
    (h : MeasurementWellKeyed m) :
    deserializeMeasurement (serializeMeasurement m) = m := by
  obtain ⟨ht1, ht2, hf1, hf2⟩ := h
  obtain ⟨tags, fields⟩ := m
  simp only [deserializeMeasurement, serializeMeasurement, deserialize_tags,
    deserialize_fields, serialize_map_values, AggregateTSMMeasurement.mk.injEq]
  exact ⟨collect_by_name_roundtrip AggregateTSMTag.name tags ht1 ht2,
    collect_by_name_roundtrip AggregateTSMField.name fields hf1 hf2⟩

/-- **C10.** Deserializing keys each tag and field by its own `name`,
silently keeping only one entry per duplicate name (the rebuilt maps
always have distinct keys, each equal to its entry's name); consequently,
for every schema whose tag and field map keys equal the entries' own names
and whose names are distinct, serializing to the wire form and
deserializing yields the original schema. -/
theorem tsm_schema_json_roundtrip (s : AggregateTSMSchema) (h : SchemaWellKeyed s) :
    deserializeSchema (serializeSchema s) = s ∧
    (∀ v : List AggregateTSMTag,
      ((deserialize_tags v).map Prod.fst).Nodup ∧
      ∀ kv ∈ deserialize_tags v, kv.1 = kv.2.name) ∧
    (∀ v : List AggregateTSMField,
      ((deserialize_fields v).map Prod.fst).Nodup ∧
      ∀ kv ∈ deserialize_fields v, kv.1 = kv.2.name) := by
  refine ⟨?_, ?_, ?_⟩
  · obtain ⟨o, b, ms⟩ := s
    have hms : ∀ kv ∈ ms, MeasurementWellKeyed kv.2 := h
    simp only [deserializeSchema, serializeSchema, AggregateTSMSchema.mk.injEq,
      List.map_map, true_and]
    have hcongr := List.map_congr_left (l := ms)
      (f := (fun kv => (kv.1, deserializeMeasurement kv.2)) ∘
        (fun kv => (kv.1, serializeMeasurement kv.2)))
      (g := id) ?_
    · rw [hcongr, List.map_id]
    · intro kv hkv
      obtain ⟨n, m⟩ := kv
      simp only [Function.comp_apply, id_eq, Prod.mk.injEq, true_and]
      exact deserializeMeasurement_serializeMeasurement m (hms (n, m) hkv)
  · intro v
    refine ⟨nodup_keys_hashMapCollect _, ?_⟩
    intro kv hkv
    have := mem_hashMapCollect _ kv hkv
    rcases List.mem_map.mp this with ⟨t, _, ht⟩
    rw [← ht]
  · intro v
    refine ⟨nodup_keys_hashMapCollect _, ?_⟩
    intro kv hkv
    have := mem_hashMapCollect _ kv hkv
    rcases List.mem_map.mp this with ⟨f, _, hf⟩
    rw [← hf]

/-- The "cpu" measurement schema from the repository's own test data. -/
def sampleTag : AggregateTSMTag := { name := "host", values := ["server", "desktop"] }

def sampleField : AggregateTSMField := { name := "usage", types := ["Float"] }

def sampleMeasurement : AggregateTSMMeasurement :=
  { tags := [("host", sampleTag)], fields := [("usage", sampleField)] }

def sampleSchema : AggregateTSMSchema :=
  { orgId := "1234", bucketId := "5678", measurements := [("cpu", sampleMeasurement)] }

/-- Witness for C10: the repository's sample schema is well-keyed and
survives the serialize/deserialize round trip unchanged. -/
theorem tsm_schema_json_roundtrip_witness :
    SchemaWellKeyed sampleSchema ∧
    deserializeSchema (serializeSchema sampleSchema) = sampleSchema :=
  ⟨by decide, (tsm_schema_json_roundtrip sampleSchema (by decide)).1⟩

end TSMImport
